import Mathlib

/-!
Verification of the figmasjon node serializer.

Shallow embedding of the two implementation variants of the recursive
scene-node serializer:

* `src/widget-src/code.tsx` — the explicit-schema variant (`processNode`,
  `exportSelectedWithDescendantsToJSON`);
* `src/unnamed/part_000` — the property-name-dump variant
  (`Unnamed.processNode`, `Unnamed.exportSelectedWithDescendantsToJSON`).

The observable output of both implementations is the JSON document produced
by `JSON.stringify(..., null, 2)`.  We model that document as a `JVal`
(JSON value); object fields are ordered key/value lists.  Per the semantics
of `JSON.stringify`, a property whose value is `undefined` is omitted from
the output object, so an assignment `data.k = undefined` in the source is
modelled as the absence of the key `k`.

JavaScript `switch` semantics: execution enters at the *first* matching
`case` label.  `code.tsx` lists `case 'COMPONENT'` twice — once in the
fall-through group `'FRAME' | 'INSTANCE' | 'COMPONENT'` (line 81) and once
on its own (line 125); the second occurrence is unreachable.  The embedding
reproduces this with an if-chain tested in source order.
-/

namespace FigmaExport

/-- A JSON value, as produced by `JSON.stringify`.  Objects are ordered
lists of key/value pairs (the builds below never produce duplicate keys). -/
inductive JVal where
  | null
  | bool (b : Bool)
  | num (n : Int)
  | str (s : String)
  | arr (xs : List JVal)
  | obj (fields : List (String × JVal))

/-- A paint is copied verbatim by the serializer and never inspected, so we
model it directly by its JSON rendering. -/
abbrev Paint := JVal

/-- A font reference (`FontName` in the Figma API): family and style. -/
structure FontName where
  family : String
  style : String

/-- Rendering of a font reference into the JSON output. -/
def fontNameJVal (f : FontName) : JVal :=
  .obj [("family", .str f.family), ("style", .str f.style)]

/-- An attribute that may hold the host's `figma.mixed` sentinel instead of
an actual value. -/
inductive Mixed (α : Type) where
  | mixed
  | value (a : α)

/-- The text-specific attributes read by the `'TEXT'` case of `processNode`
(`characters`, `fontSize`, `fontName`, `textAlignHorizontal`,
`textAlignVertical`, `fills`).  `fontSize`, `fontName` and `fills` may hold
the mixed sentinel. -/
structure TextProps where
  characters : String
  fontSize : Mixed Int
  fontName : Mixed FontName
  textAlignHorizontal : String
  textAlignVertical : String
  fills : Mixed (List Paint)

/-- The rectangle-specific attributes read by the `'RECTANGLE'` case.
`cornerRadius`, `fills` and `strokeWeight` may hold the mixed sentinel;
`strokes` is typed `ReadonlyArray<Paint>` in the plugin API and can never
be mixed, matching the source's unchecked copy `rectNode.strokes`. -/
structure RectProps where
  cornerRadius : Mixed Int
  fills : Mixed (List Paint)
  strokes : List Paint
  strokeWeight : Mixed Int

/-- The seven auto-layout attributes copied by the frame-like case.  The
source guards the whole group with a single capability probe
`'layoutMode' in frameNode`, which we model as an `Option FrameProps` on
the node. -/
structure FrameProps where
  layoutMode : String
  primaryAxisSizingMode : String
  counterAxisSizingMode : String
  paddingLeft : Int
  paddingRight : Int
  paddingTop : Int
  paddingBottom : Int

/-- The non-recursive attributes of a scene node: the discriminant `type`
(an open set of strings), identity, geometry, visibility, and the
type-specific attribute groups.  `frameProps = none` models a frame-like
node on which the probe `'layoutMode' in node` fails. -/
structure NodeCore where
  type : String
  name : String
  x : Int
  y : Int
  width : Int
  height : Int
  id : String
  visible : Bool
  frameProps : Option FrameProps
  textProps : TextProps
  rectProps : RectProps

/-- A scene node: its attributes plus an optional ordered child list.
`children = none` models a node on which the probe `'children' in node`
fails; `children = some cs` models a node carrying the child array `cs`. -/
inductive SceneNode where
  | mk (core : NodeCore) (children : Option (List SceneNode))

/-- The non-recursive attributes of a node. -/
def SceneNode.core : SceneNode → NodeCore
  | .mk c _ => c

/-- The child list of a node (`none` when the `children` key is absent). -/
def SceneNode.children : SceneNode → Option (List SceneNode)
  | .mk _ cs => cs

/-- First-match lookup of a key in a serialized record, i.e. whether (and
with which value) the key occurs in the stringified JSON object. -/
def jget (key : String) : List (String × JVal) → Option JVal
  | [] => none
  | (k, v) :: rest => if k = key then some v else jget key rest

/-- One optional output entry: emitted when the attribute holds a value,
omitted when it holds the mixed sentinel (the source assigns `undefined`,
which `JSON.stringify` drops). -/
def mixedEntry {α : Type} (key : String) (f : α → JVal) : Mixed α → List (String × JVal)
  | .mixed => []
  | .value a => [(key, f a)]

/-- The eight common fields built unconditionally at the top of
`processNode` (code.tsx lines 66–75), in source order. -/
def commonFields (c : NodeCore) : List (String × JVal) :=
  [("type", .str c.type), ("name", .str c.name), ("x", .num c.x), ("y", .num c.y),
   ("width", .num c.width), ("height", .num c.height), ("id", .str c.id),
   ("visible", .bool c.visible)]

/-- The type-specific fields appended by the `switch` of `processNode`
(code.tsx lines 78–139).  The if-chain is tested in the source's case
order, so a `COMPONENT` node is handled by the frame-like group and the
second `case 'COMPONENT'` (lines 125–131) is dead, exactly as in
JavaScript. -/
def typeSpecificFields (c : NodeCore) : List (String × JVal) :=
  if c.type = "FRAME" ∨ c.type = "INSTANCE" ∨ c.type = "COMPONENT" then
    match c.frameProps with
    | some fp =>
      [("layoutMode", .str fp.layoutMode),
       ("primaryAxisSizingMode", .str fp.primaryAxisSizingMode),
       ("counterAxisSizingMode", .str fp.counterAxisSizingMode),
       ("paddingLeft", .num fp.paddingLeft),
       ("paddingRight", .num fp.paddingRight),
       ("paddingTop", .num fp.paddingTop),
       ("paddingBottom", .num fp.paddingBottom)]
    | none => []
  else if c.type = "TEXT" then
    [("characters", .str c.textProps.characters)]
      ++ mixedEntry "fontSize" (fun n => .num n) c.textProps.fontSize
      ++ mixedEntry "fontName" fontNameJVal c.textProps.fontName
      ++ [("textAlignHorizontal", .str c.textProps.textAlignHorizontal),
          ("textAlignVertical", .str c.textProps.textAlignVertical)]
      ++ mixedEntry "fills" (fun ps => .arr ps) c.textProps.fills
  else if c.type = "RECTANGLE" then
    mixedEntry "cornerRadius" (fun n => .num n) c.rectProps.cornerRadius
      ++ mixedEntry "fills" (fun ps => .arr ps) c.rectProps.fills
      ++ [("strokes", .arr c.rectProps.strokes)]
      ++ mixedEntry "strokeWeight" (fun n => .num n) c.rectProps.strokeWeight
  else if c.type = "COMPONENT_SET" then
    [("componentId", .str c.id), ("instanceName", .str c.name)]
  else
    []

mutual

/-- Embedding of `processNode` from `src/widget-src/code.tsx` (lines 65–147): common
fields, then the type-specific fields, then — when the node has a
non-empty child array — the recursively serialized children. -/
def processNode : SceneNode → List (String × JVal)
  | .mk core ocs => commonFields core ++ typeSpecificFields core ++ childrenField ocs

/-- The `children` entry (code.tsx lines 141–144): present iff the
`children` probe succeeds and the array is non-empty. -/
def childrenField : Option (List SceneNode) → List (String × JVal)
  | some cs => if cs.length > 0 then [("children", JVal.arr (processChildren cs))] else []
  | none => []

/-- Embedding of `node.children.map(child => processNode(child))`, element-wise in
original order. -/
def processChildren : List SceneNode → List JVal
  | [] => []
  | c :: cs => JVal.obj (processNode c) :: processChildren cs

end

/-- The current page's display name and stable id, as read from
`figma.currentPage`. -/
structure PageInfo where
  name : String
  id : String

/-- Embedding of `exportSelectedWithDescendantsToJSON` from `code.tsx` (lines 150–175),
modelled as the JSON document it posts: the error payload on an empty
selection, otherwise the `{pageName, pageId, selectedNodes}` envelope. -/
def exportSelectedWithDescendantsToJSON (page : PageInfo) (selection : List SceneNode) :
    List (String × JVal) :=
  if selection.length = 0 then
    [("error", .str "No elements selected")]
  else
    [("pageName", .str page.name), ("pageId", .str page.id),
     ("selectedNodes", .arr (selection.map (fun n => JVal.obj (processNode n))))]

namespace Unnamed

mutual

/-- Embedding of `processNode` from `src/unnamed/part_000` (lines 23–40): only `type`,
`name`, `x`, `y`, `width`, `height` of the common attributes (no `id`, no
`visible`), plus `otherProperties` (the host's `Object.keys(node)`, a list
of property names whose exact contents are host-defined, abstracted here as
the parameter `objKeys`), plus the recursively serialized children under
the same non-empty guard as the other variant. -/
def processNode (objKeys : SceneNode → List String) : SceneNode → List (String × JVal)
  | .mk core ocs =>
    [("type", .str core.type), ("name", .str core.name), ("x", .num core.x),
     ("y", .num core.y), ("width", .num core.width), ("height", .num core.height),
     ("otherProperties", .arr ((objKeys (.mk core ocs)).map (fun s => JVal.str s)))]
      ++ childrenField objKeys ocs

/-- The `children` entry of the part_000 variant (lines 34–37). -/
def childrenField (objKeys : SceneNode → List String) :
    Option (List SceneNode) → List (String × JVal)
  | some cs => if cs.length > 0 then [("children", JVal.arr (processChildren objKeys cs))] else []
  | none => []

/-- Embedding of `node.children.map(child => processNode(child))` of the part_000
variant. -/
def processChildren (objKeys : SceneNode → List String) : List SceneNode → List JVal
  | [] => []
  | c :: cs => JVal.obj (processNode objKeys c) :: processChildren objKeys cs

end

/-- Embedding of `exportSelectedWithDescendantsToJSON` from `part_000` (lines 43–68):
identical envelope logic, over the part_000 `processNode`. -/
def exportSelectedWithDescendantsToJSON (objKeys : SceneNode → List String)
    (page : PageInfo) (selection : List SceneNode) : List (String × JVal) :=
  if selection.length = 0 then
    [("error", .str "No elements selected")]
  else
    [("pageName", .str page.name), ("pageId", .str page.id),
     ("selectedNodes", .arr (selection.map (fun n => JVal.obj (processNode objKeys n))))]

end Unnamed

/-! Tree shape.

`Shape` records only the branching structure of a tree: node count at every
depth, sibling order and nesting depth.  We compute it both for input trees
and for serialized output (by following `children` keys), to state that the
walk mirrors the input tree exactly. -/

/-- A pure tree shape: one node together with the shapes of its children,
in order. -/
inductive Shape where
  | node (children : List Shape)

mutual

/-- The shape of an input node: absent and empty child sequences both yield
a leaf (the serializer cannot distinguish them in the output). -/
def SceneNode.shape : SceneNode → Shape
  | .mk _ ocs => .node (match ocs with | some cs => shapeList cs | none => [])

/-- Shapes of a list of input nodes, in order. -/
def shapeList : List SceneNode → List Shape
  | [] => []
  | c :: cs => SceneNode.shape c :: shapeList cs

end

mutual

/-- Depth of an input node: 1 plus the maximal child depth. -/
def SceneNode.depth : SceneNode → Nat
  | .mk _ ocs => 1 + (match ocs with | some cs => SceneNode.depthList cs | none => 0)

/-- Maximal depth over a list of input nodes. -/
def SceneNode.depthList : List SceneNode → Nat
  | [] => 0
  | c :: cs => max (SceneNode.depth c) (SceneNode.depthList cs)

end

mutual

/-- Depth of a shape. -/
def Shape.depth : Shape → Nat
  | .node cs => 1 + Shape.depthList cs

/-- Maximal depth over a list of shapes. -/
def Shape.depthList : List Shape → Nat
  | [] => 0
  | s :: ss => max (Shape.depth s) (Shape.depthList ss)

end

mutual

/-- Node count of a shape. -/
def Shape.count : Shape → Nat
  | .node cs => 1 + Shape.countList cs

/-- Total node count over a list of shapes. -/
def Shape.countList : List Shape → Nat
  | [] => 0
  | s :: ss => Shape.count s + Shape.countList ss

end

mutual

/-- The child shapes a serialized record exposes: the first `children`
entry, read as an array of objects (anything else contributes leaves). -/
def recChildren : List (String × JVal) → List Shape
  | [] => []
  | (k, v) :: rest => if k = "children" then jarrShapes v else recChildren rest

/-- Shapes of the elements of a JSON array. -/
def jarrShapes : JVal → List Shape
  | .arr xs => jobjShapes xs
  | _ => []

/-- Shapes of a list of JSON values. -/
def jobjShapes : List JVal → List Shape
  | [] => []
  | x :: xs => jrecShape x :: jobjShapes xs

/-- Shape of a JSON value viewed as a serialized node. -/
def jrecShape : JVal → Shape
  | .obj fields => .node (recChildren fields)
  | _ => .node []

end

/-- Shape of a serialized record: a node whose children are read from its
`children` entry. -/
def recShape (r : List (String × JVal)) : Shape :=
  .node (recChildren r)

/-! Helper lemmas. -/

theorem jget_append (k : String) (a b : List (String × JVal)) :
    jget k (a ++ b) = Option.or (jget k a) (jget k b) := by
  induction a with
  | nil => simp [jget]
  | cons hd tl ih =>
    obtain ⟨k2, v⟩ := hd
    by_cases h : k2 = k <;> simp [jget, h, ih, Option.or]

theorem jget_childrenField (k : String) (ocs : Option (List SceneNode))
    (h : k ≠ "children") : jget k (childrenField ocs) = none := by
  cases ocs with
  | none => rfl
  | some cs =>
    unfold childrenField
    split
    · simp [jget, Ne.symm h]
    · rfl

theorem jget_children_typeSpecific (c : NodeCore) :
    jget "children" (typeSpecificFields c) = none := by
  unfold typeSpecificFields
  split_ifs
  · cases c.frameProps <;> simp [jget]
  · cases c.textProps.fontSize <;> cases c.textProps.fontName <;>
      cases c.textProps.fills <;> simp [jget, mixedEntry]
  · cases c.rectProps.cornerRadius <;> cases c.rectProps.fills <;>
      cases c.rectProps.strokeWeight <;> simp [jget, mixedEntry]
  · simp [jget]
  · simp [jget]

theorem jget_children_processNode (core : NodeCore) (ocs : Option (List SceneNode)) :
    jget "children" (processNode (.mk core ocs)) = jget "children" (childrenField ocs) := by
  simp [processNode, jget_append, commonFields, jget, jget_children_typeSpecific,
    Option.or]

theorem recChildren_eq_jget (r : List (String × JVal)) :
    recChildren r = (match jget "children" r with | some v => jarrShapes v | none => []) := by
  induction r with
  | nil => simp [recChildren, jget]
  | cons hd tl ih =>
    obtain ⟨k, v⟩ := hd
    by_cases h : k = "children" <;> simp [recChildren, jget, h, ih]

mutual

theorem recShape_processNode : ∀ n : SceneNode, recShape (processNode n) = n.shape
  | .mk core none => by
    rw [recShape, recChildren_eq_jget, jget_children_processNode]
    simp [childrenField, jget, SceneNode.shape]
  | .mk core (some cs) => by
    have h := jobjShapes_processChildren cs
    rw [recShape, recChildren_eq_jget, jget_children_processNode]
    cases cs with
    | nil => simp [childrenField, jget, SceneNode.shape, shapeList]
    | cons c rest =>
      simp [childrenField, jget, jarrShapes, SceneNode.shape, h]

theorem jobjShapes_processChildren :
    ∀ cs : List SceneNode, jobjShapes (processChildren cs) = shapeList cs
  | [] => by simp [processChildren, jobjShapes, shapeList]
  | c :: cs => by
    have h1 := recShape_processNode c
    have h2 := jobjShapes_processChildren cs
    rw [recShape] at h1
    simp [processChildren, jobjShapes, jrecShape, shapeList, h1, h2]

end

theorem unnamed_jget_childrenField (objKeys : SceneNode → List String) (k : String)
    (ocs : Option (List SceneNode)) (h : k ≠ "children") :
    jget k (Unnamed.childrenField objKeys ocs) = none := by
  cases ocs with
  | none => rfl
  | some cs =>
    unfold Unnamed.childrenField
    split
    · simp [jget, Ne.symm h]
    · rfl

theorem processChildren_map (cs : List SceneNode) :
    processChildren cs = cs.map (fun c => JVal.obj (processNode c)) := by
  induction cs with
  | nil => rfl
  | cons c rest ih => simp [processChildren, ih]

mutual

theorem depth_shape : ∀ n : SceneNode, Shape.depth n.shape = n.depth
  | .mk core none => by
    simp [SceneNode.shape, Shape.depth, Shape.depthList, SceneNode.depth]
  | .mk core (some cs) => by
    have h := depthList_shapeList cs
    simp [SceneNode.shape, Shape.depth, SceneNode.depth, h]

theorem depthList_shapeList :
    ∀ cs : List SceneNode, Shape.depthList (shapeList cs) = SceneNode.depthList cs
  | [] => by simp [shapeList, Shape.depthList, SceneNode.depthList]
  | c :: cs => by
    have h1 := depth_shape c
    have h2 := depthList_shapeList cs
    simp [shapeList, Shape.depthList, SceneNode.depthList, h1, h2]

end

/-! Concrete sample inputs, used by closed theorems. -/

/-- Unremarkable text attributes for sample nodes. -/
def sampleTextProps : TextProps :=
  { characters := "hi", fontSize := .value 12,
    fontName := .value { family := "Inter", style := "Regular" },
    textAlignHorizontal := "LEFT", textAlignVertical := "TOP",
    fills := .value [] }

/-- Unremarkable rectangle attributes for sample nodes. -/
def sampleRectProps : RectProps :=
  { cornerRadius := .value 0, fills := .value [], strokes := [],
    strokeWeight := .value 1 }

/-- A node core of the given type, name and id, without layout capability. -/
def mkCore (t nm i : String) : NodeCore :=
  { type := t, name := nm, x := 0, y := 0, width := 10, height := 10, id := i,
    visible := true, frameProps := none, textProps := sampleTextProps,
    rectProps := sampleRectProps }

/-- A childless node whose discriminant is the component type. -/
def componentSample : SceneNode := .mk (mkCore "COMPONENT" "Btn" "1:2") none

/-- The component-set node of the spec's scenario: id "123:4", name
"Button". -/
def componentSetSample : SceneNode := .mk (mkCore "COMPONENT_SET" "Button" "123:4") none

/-- A plain childless rectangle node. -/
def plainSample : SceneNode := .mk (mkCore "RECTANGLE" "r" "9:9") none

/-- Concrete auto-layout attributes for the frame sample. -/
def sampleFrameProps : FrameProps :=
  { layoutMode := "HORIZONTAL", primaryAxisSizingMode := "AUTO",
    counterAxisSizingMode := "FIXED", paddingLeft := 1, paddingRight := 2,
    paddingTop := 3, paddingBottom := 4 }

/-- A childless frame node exposing the layout-mode capability. -/
def frameSample : SceneNode :=
  .mk { mkCore "FRAME" "f" "0:1" with frameProps := some sampleFrameProps } none

/-- The seven auto-layout output keys, in source order. -/
def layoutKeys : List String :=
  ["layoutMode", "primaryAxisSizingMode", "counterAxisSizingMode",
   "paddingLeft", "paddingRight", "paddingTop", "paddingBottom"]

/-! Claim theorems. -/

/-- C1: the claim says a node of type `COMPONENT` is serialized with
`componentId` / `instanceName` — as does the dead `case 'COMPONENT'` at
code.tsx lines 125–131 and the `ComponentNodeData` interface.  The code
disagrees with its own declared intent: because `'COMPONENT'` already
appears in the fall-through group at line 81, a JavaScript `switch` never
reaches the second case, so neither field is ever emitted.  Evaluated here
on a concrete component node (id "1:2", name "Btn"): both keys are absent
from the output. -/
theorem component_fields_never_emitted :
    jget "componentId" (processNode componentSample) = none ∧
    jget "instanceName" (processNode componentSample) = none := by
  constructor <;> rfl

/-- C8: a node whose discriminant is the component-set type is serialized
with `componentId` equal to the set node's own id and `instanceName` equal
to its own name (code.tsx lines 118–123), for every such node; in
particular the spec's scenario node with id "123:4" and name "Button". -/
theorem componentSet_derived_fields (core : NodeCore) (ocs : Option (List SceneNode)) :
    jget "componentId" (processNode (.mk { core with type := "COMPONENT_SET" } ocs)) =
      some (.str core.id) ∧
    jget "instanceName" (processNode (.mk { core with type := "COMPONENT_SET" } ocs)) =
      some (.str core.name) ∧
    jget "componentId" (processNode componentSetSample) = some (.str "123:4") ∧
    jget "instanceName" (processNode componentSetSample) = some (.str "Button") := by
  refine ⟨?_, ?_, rfl, rfl⟩ <;>
    simp [processNode, commonFields, typeSpecificFields, jget]

/-- C3 counterexample: the claim asserts that *every* serialized record —
it cites the `processNode` of `src/unnamed/part_000` alongside the widget
one — carries all eight common fields, but the part_000 variant copies only
`type`, `name`, `x`, `y`, `width`, `height` (lines 24–32): on a concrete
rectangle node its output has no `id` and no `visible` key. -/
theorem unnamed_record_lacks_id_and_visible :
    jget "id" (Unnamed.processNode (fun _ => []) plainSample) = none ∧
    jget "visible" (Unnamed.processNode (fun _ => []) plainSample) = none := by
  constructor <;> rfl

/-- C3 amended: the widget-src serializer emits all eight common fields
(`type`, `name`, `x`, `y`, `width`, `height`, `id`, `visible`) for every
input node regardless of its type; the part_000 variant emits only the
first six of them (plus `otherProperties`) — `id` and `visible` are absent
from its records. -/
theorem common_fields_present (n : SceneNode) (objKeys : SceneNode → List String) :
    jget "type" (processNode n) = some (.str n.core.type) ∧
    jget "name" (processNode n) = some (.str n.core.name) ∧
    jget "x" (processNode n) = some (.num n.core.x) ∧
    jget "y" (processNode n) = some (.num n.core.y) ∧
    jget "width" (processNode n) = some (.num n.core.width) ∧
    jget "height" (processNode n) = some (.num n.core.height) ∧
    jget "id" (processNode n) = some (.str n.core.id) ∧
    jget "visible" (processNode n) = some (.bool n.core.visible) ∧
    jget "type" (Unnamed.processNode objKeys n) = some (.str n.core.type) ∧
    jget "name" (Unnamed.processNode objKeys n) = some (.str n.core.name) ∧
    jget "x" (Unnamed.processNode objKeys n) = some (.num n.core.x) ∧
    jget "y" (Unnamed.processNode objKeys n) = some (.num n.core.y) ∧
    jget "width" (Unnamed.processNode objKeys n) = some (.num n.core.width) ∧
    jget "height" (Unnamed.processNode objKeys n) = some (.num n.core.height) ∧
    jget "id" (Unnamed.processNode objKeys n) = none ∧
    jget "visible" (Unnamed.processNode objKeys n) = none := by
  obtain ⟨core, ocs⟩ := n
  refine ⟨?_, ?_, ?_, ?_, ?_, ?_, ?_, ?_, ?_, ?_, ?_, ?_, ?_, ?_, ?_, ?_⟩ <;>
    simp [processNode, Unnamed.processNode, commonFields, jget, SceneNode.core,
      unnamed_jget_childrenField]

/-- C4: the serialized record has a `children` key iff the input node's
child sequence exists and is non-empty (code.tsx lines 141–144, part_000
lines 34–37); a node without the capability, or with an empty child array,
yields a record with no `children` key at all. -/
theorem children_key_iff (core : NodeCore) (ocs : Option (List SceneNode))
    (objKeys : SceneNode → List String) :
    (jget "children" (processNode (.mk core ocs)) =
      match ocs with
      | some cs => if cs.length > 0 then some (.arr (processChildren cs)) else none
      | none => none) ∧
    ((jget "children" (processNode (.mk core ocs))).isSome ↔
      ∃ cs, ocs = some cs ∧ cs ≠ []) ∧
    ((jget "children" (Unnamed.processNode objKeys (.mk core ocs))).isSome ↔
      ∃ cs, ocs = some cs ∧ cs ≠ []) := by
  have hmain : jget "children" (processNode (.mk core ocs)) =
      match ocs with
      | some cs => if cs.length > 0 then some (.arr (processChildren cs)) else none
      | none => none := by
    rw [jget_children_processNode]
    cases ocs with
    | none => rfl
    | some cs =>
      unfold childrenField
      split <;> rename_i h <;> simp [jget, h]
  have hunnamed : jget "children" (Unnamed.processNode objKeys (.mk core ocs)) =
      match ocs with
      | some cs =>
        if cs.length > 0 then some (.arr (Unnamed.processChildren objKeys cs)) else none
      | none => none := by
    have step : jget "children" (Unnamed.processNode objKeys (.mk core ocs)) =
        jget "children" (Unnamed.childrenField objKeys ocs) := by
      simp [Unnamed.processNode, jget_append, jget, Option.or]
    rw [step]
    cases ocs with
    | none => rfl
    | some cs =>
      unfold Unnamed.childrenField
      split <;> rename_i h <;> simp [jget, h]
  refine ⟨hmain, ?_, ?_⟩
  · rw [hmain]
    cases ocs with
    | none => simp
    | some cs =>
      cases cs with
      | nil => simp
      | cons c rest => simp
  · rw [hunnamed]
    cases ocs with
    | none => simp
    | some cs =>
      cases cs with
      | nil => simp
      | cons c rest => simp

/-- C5: the output tree mirrors the input tree exactly — the shape
(node count at every depth, sibling order, nesting depth) of the serialized
record equals the shape of the input node; every child list is serialized
element-wise in original order; and the envelope's `selectedNodes` is the
element-wise serialization of the selection roots in input order. -/
theorem output_mirrors_input (n : SceneNode) (cs : List SceneNode) (page : PageInfo)
    (r : SceneNode) (rest : List SceneNode) :
    recShape (processNode n) = n.shape ∧
    Shape.count (recShape (processNode n)) = Shape.count n.shape ∧
    Shape.depth (recShape (processNode n)) = Shape.depth n.shape ∧
    processChildren cs = cs.map (fun c => JVal.obj (processNode c)) ∧
    jget "selectedNodes" (exportSelectedWithDescendantsToJSON page (r :: rest)) =
      some (.arr ((r :: rest).map (fun m => JVal.obj (processNode m)))) := by
  refine ⟨recShape_processNode n, by rw [recShape_processNode n],
    by rw [recShape_processNode n], processChildren_map cs, ?_⟩
  simp [exportSelectedWithDescendantsToJSON, jget]

/-- C6: on an empty root selection no envelope is built and the output is
exactly `{ error: "No elements selected" }` with no other keys; on any
non-empty selection the `{pageName, pageId, selectedNodes}` envelope is
produced instead (and is not the error payload).  Both implementation
variants agree (code.tsx lines 154–161, part_000 lines 47–54). -/
theorem empty_selection_error (page : PageInfo) (r : SceneNode) (rest : List SceneNode)
    (objKeys : SceneNode → List String) :
    exportSelectedWithDescendantsToJSON page [] =
      [("error", .str "No elements selected")] ∧
    exportSelectedWithDescendantsToJSON page (r :: rest) =
      [("pageName", .str page.name), ("pageId", .str page.id),
       ("selectedNodes", .arr ((r :: rest).map (fun m => JVal.obj (processNode m))))] ∧
    exportSelectedWithDescendantsToJSON page (r :: rest) ≠
      [("error", .str "No elements selected")] ∧
    Unnamed.exportSelectedWithDescendantsToJSON objKeys page [] =
      [("error", .str "No elements selected")] ∧
    Unnamed.exportSelectedWithDescendantsToJSON objKeys page (r :: rest) =
      [("pageName", .str page.name), ("pageId", .str page.id),
       ("selectedNodes",
        .arr ((r :: rest).map (fun m => JVal.obj (Unnamed.processNode objKeys m))))] ∧
    Unnamed.exportSelectedWithDescendantsToJSON objKeys page (r :: rest) ≠
      [("error", .str "No elements selected")] := by
  refine ⟨rfl, ?_, ?_, rfl, ?_, ?_⟩ <;>
    simp [exportSelectedWithDescendantsToJSON, Unnamed.exportSelectedWithDescendantsToJSON]

/-- C2: for every node and every attribute that can hold the mixed
sentinel — text `fontSize`, `fontName`, `fills`; rectangle `cornerRadius`,
`fills`, `strokeWeight` — a mixed input value yields a record with the
corresponding key absent altogether (`jget` is `none`: not present with any
value, in particular not `null`).  Rectangle `strokes`, also listed by the
claim, is `ReadonlyArray<Paint>` in the plugin API and cannot hold the
sentinel at all, matching the source's unchecked copy; the claim is vacuous
for it. -/
theorem mixed_sentinel_fields_absent (core : NodeCore) (ocs : Option (List SceneNode)) :
    jget "fontSize" (processNode (.mk
      { core with
        type := "TEXT"
        textProps := { core.textProps with fontSize := .mixed } } ocs)) = none ∧
    jget "fontName" (processNode (.mk
      { core with
        type := "TEXT"
        textProps := { core.textProps with fontName := .mixed } } ocs)) = none ∧
    jget "fills" (processNode (.mk
      { core with
        type := "TEXT"
        textProps := { core.textProps with fills := .mixed } } ocs)) = none ∧
    jget "cornerRadius" (processNode (.mk
      { core with
        type := "RECTANGLE"
        rectProps := { core.rectProps with cornerRadius := .mixed } } ocs)) = none ∧
    jget "fills" (processNode (.mk
      { core with
        type := "RECTANGLE"
        rectProps := { core.rectProps with fills := .mixed } } ocs)) = none ∧
    jget "strokeWeight" (processNode (.mk
      { core with
        type := "RECTANGLE"
        rectProps := { core.rectProps with strokeWeight := .mixed } } ocs)) = none := by
  refine ⟨?_, ?_, ?_, ?_, ?_, ?_⟩
  · cases hf : core.textProps.fontName <;> cases hl : core.textProps.fills <;>
      simp [processNode, commonFields, typeSpecificFields, jget, mixedEntry,
        fontNameJVal, jget_childrenField, hf, hl]
  · cases hf : core.textProps.fontSize <;> cases hl : core.textProps.fills <;>
      simp [processNode, commonFields, typeSpecificFields, jget, mixedEntry,
        fontNameJVal, jget_childrenField, hf, hl]
  · cases hf : core.textProps.fontSize <;> cases hl : core.textProps.fontName <;>
      simp [processNode, commonFields, typeSpecificFields, jget, mixedEntry,
        fontNameJVal, jget_childrenField, hf, hl]
  · cases hf : core.rectProps.fills <;> cases hl : core.rectProps.strokeWeight <;>
      simp [processNode, commonFields, typeSpecificFields, jget, mixedEntry,
        jget_childrenField, hf, hl]
  · cases hf : core.rectProps.cornerRadius <;> cases hl : core.rectProps.strokeWeight <;>
      simp [processNode, commonFields, typeSpecificFields, jget, mixedEntry,
        jget_childrenField, hf, hl]
  · cases hf : core.rectProps.cornerRadius <;> cases hl : core.rectProps.fills <;>
      simp [processNode, commonFields, typeSpecificFields, jget, mixedEntry,
        jget_childrenField, hf, hl]

/-- C7: serialization is total by construction (`processNode` is a total
function on all input nodes; a missing type-specific attribute group is
omitted, never a failure).  For every frame-like node (`FRAME`, `INSTANCE`,
or `COMPONENT`, which the switch handles in its first case group): when the
node exposes the layout-mode capability all seven layout fields are copied,
and when it does not all seven are absent (code.tsx lines 84–92). -/
theorem frame_layout_capability (core : NodeCore) (ocs : Option (List SceneNode))
    (h : core.type = "FRAME" ∨ core.type = "INSTANCE" ∨ core.type = "COMPONENT") :
    layoutKeys.map (fun k => jget k (processNode (.mk core ocs))) =
      match core.frameProps with
      | some fp =>
        [some (.str fp.layoutMode), some (.str fp.primaryAxisSizingMode),
         some (.str fp.counterAxisSizingMode), some (.num fp.paddingLeft),
         some (.num fp.paddingRight), some (.num fp.paddingTop),
         some (.num fp.paddingBottom)]
      | none => [none, none, none, none, none, none, none] := by
  rcases h with h | h | h <;> cases hfp : core.frameProps <;>
    simp [layoutKeys, processNode, commonFields, typeSpecificFields, jget,
      jget_childrenField, h, hfp]

/-- Witness for C7: the seven layout fields of a concrete frame node with
layout capability, read off by applying `frame_layout_capability`. -/
theorem frame_layout_capability_witness :
    layoutKeys.map (fun k => jget k (processNode frameSample)) =
      [some (.str "HORIZONTAL"), some (.str "AUTO"), some (.str "FIXED"),
       some (.num 1), some (.num 2), some (.num 3), some (.num 4)] := by
  simpa using frame_layout_capability
    { mkCore "FRAME" "f" "0:1" with frameProps := some sampleFrameProps } none
    (Or.inl rfl)

/-- C9: the recursive walk is total — it is defined here by well-founded
recursion on the child structure, so on every finite acyclic input it
terminates with a complete result — and its recursion depth equals the tree
depth: the nesting depth of the serialized output equals the depth of the
input tree, with no depth limit anywhere in the definition. -/
theorem walk_depth_eq_tree_depth (n : SceneNode) :
    Shape.depth (recShape (processNode n)) = SceneNode.depth n := by
  rw [recShape_processNode, depth_shape]

/-- Pointwise update of the `visible` entry of a serialized record,
leaving every other entry unchanged. -/
def updVisibleEntry (b : Bool) (kv : String × JVal) : String × JVal :=
  if kv.1 = "visible" then (kv.1, .bool b) else kv

theorem typeSpecific_map_updVisible (b : Bool) (c : NodeCore) :
    (typeSpecificFields c).map (updVisibleEntry b) = typeSpecificFields c := by
  unfold typeSpecificFields
  split_ifs
  · cases c.frameProps <;> simp [updVisibleEntry]
  · cases c.textProps.fontSize <;> cases c.textProps.fontName <;>
      cases c.textProps.fills <;> simp [mixedEntry, updVisibleEntry]
  · cases c.rectProps.cornerRadius <;> cases c.rectProps.fills <;>
      cases c.rectProps.strokeWeight <;> simp [mixedEntry, updVisibleEntry]
  · simp [updVisibleEntry]
  · simp [updVisibleEntry]

theorem childrenField_map_updVisible (b : Bool) (ocs : Option (List SceneNode)) :
    (childrenField ocs).map (updVisibleEntry b) = childrenField ocs := by
  cases ocs with
  | none => rfl
  | some cs =>
    unfold childrenField
    split <;> simp [updVisibleEntry]

theorem typeSpecific_ignores_visible (c : NodeCore) (b : Bool) :
    typeSpecificFields { c with visible := b } = typeSpecificFields c := rfl

/-- C10: visibility never affects traversal.  Serializing a node with its
root `visible` flag replaced differs from the original output only in the
`visible` entry (every other entry, including the whole serialized subtree
under `children`, is unchanged); the flag is recorded as the `visible`
field; and the output shape — hence which nodes appear — is identical, so
an invisible node and its descendants are never pruned. -/
theorem visibility_never_prunes (core : NodeCore) (ocs : Option (List SceneNode)) (b : Bool) :
    processNode (.mk { core with visible := b } ocs) =
      (processNode (.mk core ocs)).map (updVisibleEntry b) ∧
    jget "visible" (processNode (.mk core ocs)) = some (.bool core.visible) ∧
    recShape (processNode (.mk { core with visible := b } ocs)) =
      recShape (processNode (.mk core ocs)) := by
  refine ⟨?_, ?_, ?_⟩
  · simp [processNode, commonFields, updVisibleEntry, typeSpecific_map_updVisible,
      childrenField_map_updVisible, typeSpecific_ignores_visible]
  · simp [processNode, commonFields, jget]
  · have h1 := recShape_processNode (SceneNode.mk { core with visible := b } ocs)
    have h2 := recShape_processNode (SceneNode.mk core ocs)
    rw [h1, h2]
    rfl

end FigmaExport
